import Mathlib

/-!
Shallow embedding of `src/pytest_qgis/utils.py` (pytest-qgis helper utilities).

The module is a thin orchestration over the QGIS object model.  The embedding
models the toolkit state explicitly:

* `Project` is the ambient `QgsProject.instance()` singleton: a layer registry
  (a finite map from layer id to layer, modelled as a list with unique ids in
  insertion order, matching Python dict iteration order), a working CRS and
  the root layer-tree group's ordered children.  The functions under
  verification only ever navigate one tree group (find the source node, take
  its parent, enumerate that parent's children, insert a sibling), so the
  tree is modelled as that single group's ordered child list.
* External collaborators (the `native:reprojectlayer` processing algorithm,
  `gdal.Warp` + raster loading, `QgsCoordinateTransform.transformBoundingBox`,
  and style serialization success) are oracles collected in `Env`; the
  Python functions only forward to them, so each is an opaque function
  parameter.
* Numeric coordinates are `Int` (the claims under verification only concern
  min/max bounding-box algebra and identities, never rounding).
* `QgsProject.removeMapLayer(s)` is modelled on the layer registry it
  directly manipulates; tree-node garbage collection performed by the
  toolkit's registry bridge is an external side effect outside this module.
-/

namespace PytestQgis

/-- A coordinate reference system.  Per the data model, equality of CRSs is by
authority id; `valid` models `QgsCoordinateReferenceSystem.isValid()`. -/
structure CRS where
  authid : String
  valid : Bool
deriving DecidableEq, Repr

/-- `QgsCoordinateReferenceSystem(authid)` constructor (validity of a freshly
constructed CRS is toolkit-determined; the claims never depend on it). -/
def mkCrs (s : String) : CRS := ⟨s, true⟩

/-- `DEFAULT_CRS = QgsCoordinateReferenceSystem("EPSG:4326")`. -/
def DEFAULT_CRS : CRS := mkCrs "EPSG:4326"

/-- `DEFAULT_RASTER_FORMAT = "tif"`. -/
def DEFAULT_RASTER_FORMAT : String := "tif"

/-- `LAYER_KEYWORDS = ("layer", "lyr", "raster", "rast", "tif")`. -/
def LAYER_KEYWORDS : List String := ["layer", "lyr", "raster", "rast", "tif"]

/-- A `QgsRectangle`: axis-aligned bounding box. -/
structure Rect where
  xmin : Int
  ymin : Int
  xmax : Int
  ymax : Int
deriving DecidableEq, Repr

/-- `QgsRectangle.combineExtentWith`: expand a rectangle to cover another. -/
def Rect.combineExtentWith (a b : Rect) : Rect :=
  ⟨min a.xmin b.xmin, min a.ymin b.ymin, max a.xmax b.xmax, max a.ymax b.ymax⟩

/-- Rectangle containment, componentwise. -/
def Rect.containsRect (outer inner : Rect) : Prop :=
  outer.xmin ≤ inner.xmin ∧ outer.ymin ≤ inner.ymin ∧
  inner.xmax ≤ outer.xmax ∧ inner.ymax ≤ outer.ymax

instance (a b : Rect) : Decidable (Rect.containsRect a b) := by
  unfold Rect.containsRect; infer_instance

/-- Runtime class of a map layer (`isinstance` checks against
`QgsVectorLayer` / `QgsRasterLayer`). -/
inductive LayerKind where
  | vector
  | raster
  | other
deriving DecidableEq, Repr

/-- A `QgsMapLayer`.  `deleted` models `sip.isdeleted` (the underlying C++
object has been destroyed); `style`/`metadata` are opaque blobs. -/
structure Layer where
  id : String
  name : String
  crs : CRS
  extent : Rect
  kind : LayerKind
  isSpatial : Bool
  isValid : Bool
  style : String
  metadata : String
  source : String
  deleted : Bool
deriving DecidableEq, Repr

/-- `layer.setCrs(c)`. -/
def Layer.setCrs (l : Layer) (c : CRS) : Layer := { l with crs := c }

/-- A child of the layer-tree group under consideration: either a
`QgsLayerTreeLayer` referencing a registered layer, or a nested
`QgsLayerTreeGroup` (opaque here — only its name participates). -/
inductive TreeChild where
  | layerRef (layerId : String) (name : String)
  | group (name : String)
deriving DecidableEq, Repr

/-- `node.name()`. -/
def TreeChild.childName : TreeChild → String
  | .layerRef _ n => n
  | .group n => n

/-- The `QgsProject` singleton state: working CRS, the map-layer registry
(ids unique, insertion order) and the relevant layer-tree group's children. -/
structure Project where
  crs : CRS
  layers : List Layer
  tree : List TreeChild
deriving DecidableEq, Repr

/-- `QgsProject.mapLayers(validOnly=True).values()`. -/
def Project.validLayers (p : Project) : List Layer :=
  p.layers.filter (fun l => l.isValid)

/-- `QgsProject.addMapLayer(layer, addToLegend=False)`: registry insertion
only (a map keyed by layer id: replaces an existing entry, else appends). -/
def Project.addMapLayer (p : Project) (l : Layer) : Project :=
  if p.layers.any (fun x => x.id == l.id) then
    { p with layers := p.layers.map (fun x => if x.id == l.id then l else x) }
  else
    { p with layers := p.layers ++ [l] }

/-- `QgsProject.removeMapLayers(ids)`: drop the registry entries with the
given ids. -/
def Project.removeMapLayers (p : Project) (ids : List String) : Project :=
  { p with layers := p.layers.filter (fun l => !(ids.contains l.id)) }

/-- `QgsProject.removeMapLayer(layer)`: removal by the layer's id. -/
def Project.removeMapLayer (p : Project) (lid : String) : Project :=
  { p with layers := p.layers.filter (fun l => l.id != lid) }

/-- Oracles for the external collaborators the module forwards to. -/
structure Env where
  /-- `processing.run("native:reprojectlayer", {INPUT, TARGET_CRS, OUTPUT:
  TEMPORARY_OUTPUT})["OUTPUT"]`: input layer and target CRS to output layer. -/
  reproject : Layer → CRS → Layer
  /-- success flag of `layer.saveNamedStyle(file)` for the given layer. -/
  styleSaveOk : Layer → Bool
  /-- `gdal.Warp(output_raster, source, dstSRS=authid)` followed by
  `QgsRasterLayer(output_raster)`: (output path, source, dstSRS) ↦ layer. -/
  warpLoad : String → String → String → Layer
  /-- `QgsCoordinateTransform(in_crs, out_crs, project).transformBoundingBox`. -/
  transform : Rect → CRS → CRS → Rect

/-- `transform_rectangle(rectangle, in_crs, out_crs)`: identity fast path when
the CRSs compare equal (equality of CRSs is by authority id), otherwise the
toolkit transform. -/
def transform_rectangle (env : Env) (rectangle : Rect)
    (in_crs out_crs : CRS) : Rect :=
  if in_crs.authid == out_crs.authid then rectangle
  else env.transform rectangle in_crs out_crs

/-- `get_common_extent_from_all_layers()`: fold the reprojected extents of all
valid layers with `combineExtentWith`, `None` when there are none.  Read-only:
the `Project` is consumed, never returned. -/
def get_common_extent_from_all_layers (env : Env) (p : Project) : Option Rect :=
  let map_crs := p.crs
  match p.validLayers with
  | [] => none
  | l :: rest =>
      some (rest.foldl
        (fun extent layer =>
          extent.combineExtentWith
            (transform_rectangle env layer.extent layer.crs map_crs))
        (transform_rectangle env l.extent l.crs map_crs))

/-- The multiset fed to `Counter` in `set_map_crs_based_on_layers`:
`layer.crs().authid() for layer in mapLayers().values() if layer.isSpatial()`. -/
def spatialAuthids (p : Project) : List String :=
  (p.layers.filter (fun l => l.isSpatial)).map (fun l => l.crs.authid)

/-- `Counter(l).most_common(1)[0][0]`: the key with the maximal number of
occurrences; CPython documents that keys with equal counts are ordered in
first-encountered order, so ties go to the key occurring first.  The first
list element attaining the maximal count is exactly that key
(`List.argmax` keeps the earlier element on ties). -/
def most_common_key (l : List String) : Option String :=
  l.argmax (fun k => l.count k)

/-- `set_map_crs_based_on_layers()`. -/
def set_map_crs_based_on_layers (p : Project) : Project :=
  let crs :=
    match most_common_key (spatialAuthids p) with
    | some crs_id => mkCrs crs_id
    | none => DEFAULT_CRS
  { p with crs := crs }

/-- `root.findLayer(layer)`: the tree node referencing the given layer. -/
def findLayerNode (tree : List TreeChild) (l : Layer) : Option TreeChild :=
  tree.find? (fun c => match c with
    | .layerRef lid _ => lid == l.id
    | .group _ => false)

/-- Auxiliary walk for `lastNameIndex`: running index plus the accumulator
holding the last matching index seen so far. -/
def lastNameIndexAux (name : String) :
    List TreeChild → Nat → Option Nat → Option Nat
  | [], _, acc => acc
  | c :: cs, i, acc =>
      lastNameIndexAux name cs (i + 1)
        (if c.childName == name then some i else acc)

/-- `{child.name(): i for i, child in enumerate(group.children())}[name]`:
the dict comprehension keeps, for every name, the LAST index bearing it;
`none` models the `KeyError` when the name is absent. -/
def lastNameIndex (children : List TreeChild) (name : String) : Option Nat :=
  lastNameIndexAux name children 0 none

/-- The mutations `copy_layer_style_and_position` applies to `layer2` before
registration: `saveNamedStyle` writes `layer1`'s style to the file keyed by
`layer1.id()`, and on success `loadNamedStyle` transfers it to `layer2`
(else `layer2` keeps its current style); then `setMetadata` and `setName`
copy metadata and display name verbatim. -/
def copiedLayer (env : Env) (layer1 layer2 : Layer) : Layer :=
  { (if env.styleSaveOk layer1 then { layer2 with style := layer1.style }
     else layer2) with
    metadata := layer1.metadata, name := layer1.name }

/-- `copy_layer_style_and_position(layer1, layer2, tmp_path)`.  Returns the
updated project together with the final state of the (mutated) `layer2`;
`none` models an uncaught exception (source node missing from the tree, or
the name lookup raising `KeyError`). -/
def copy_layer_style_and_position (env : Env) (layer1 layer2 : Layer)
    (tmp_path : String) (p : Project) : Option (Project × Layer) :=
  let l2 := copiedLayer env layer1 layer2
  let p1 := if l2.isValid then p.addMapLayer l2 else p
  match findLayerNode p1.tree layer1 with
  | none => none
  | some layer_tree_layer =>
      match lastNameIndex p1.tree layer_tree_layer.childName with
      | none => none
      | some index =>
          some ({ p1 with
                    tree := p1.tree.insertIdx (index + 1)
                      (TreeChild.layerRef l2.id l2.name) },
                l2)

/-- The first loop of `replace_layers_with_reprojected_clones`: reproject each
spatial vector layer via the processing algorithm, force the target CRS when
the produced one is invalid, then copy style and position. -/
def processVectorLayers (env : Env) (map_crs : CRS) (output_path : String) :
    List Layer → Project → Option Project
  | [], p => some p
  | input_layer :: rest, p => do
      let output_layer := env.reproject input_layer map_crs
      let output_layer :=
        if !output_layer.crs.valid then output_layer.setCrs map_crs
        else output_layer
      let (p', _) ← copy_layer_style_and_position env input_layer output_layer
        output_path p
      processVectorLayers env map_crs output_path rest p'

/-- The second loop of `replace_layers_with_reprojected_clones`: warp each
spatial raster layer to `<output_path>/<name>.tif`, load it, force the target
CRS when invalid, then copy style and position.  (The `finally: warp = None`
handle release has no observable effect on the modelled state.) -/
def processRasterLayers (env : Env) (map_crs : CRS) (output_path : String) :
    List Layer → Project → Option Project
  | [], p => some p
  | input_layer :: rest, p => do
      let output_raster :=
        output_path ++ "/" ++ input_layer.name ++ "." ++ DEFAULT_RASTER_FORMAT
      let output_layer := env.warpLoad output_raster input_layer.source
        map_crs.authid
      let output_layer :=
        if !output_layer.crs.valid then output_layer.setCrs map_crs
        else output_layer
      let (p', _) ← copy_layer_style_and_position env input_layer output_layer
        output_path p
      processRasterLayers env map_crs output_path rest p'

/-- `replace_layers_with_reprojected_clones(layers, output_path)`. -/
def replace_layers_with_reprojected_clones (env : Env) (layers : List Layer)
    (output_path : String) (p : Project) : Option Project := do
  let vector_layers := layers.filter
    (fun l => l.kind == LayerKind.vector && l.isSpatial)
  let raster_layers := layers.filter
    (fun l => l.kind == LayerKind.raster && l.isSpatial)
  let map_crs := p.crs
  let p1 ← processVectorLayers env map_crs output_path vector_layers p
  let p2 ← processRasterLayers env map_crs output_path raster_layers p1
  -- Remove originals from project
  some (p2.removeMapLayers (layers.map (fun l => l.id)))

/-- `str.lower()`, characterwise over the string's characters. -/
def strToLower (s : String) : String := ⟨s.data.map Char.toLower⟩

/-- Does `hay` begin with `needle`? -/
def firstMatches : List Char → List Char → Bool
  | [], _ => true
  | _ :: _, [] => false
  | n :: ns, h :: hs => n == h && firstMatches ns hs

/-- Does `needle` occur as a contiguous run inside the character list? -/
def occursIn (needle : List Char) : List Char → Bool
  | [] => needle.isEmpty
  | c :: rest => firstMatches needle (c :: rest) || occursIn needle rest

/-- Python's `needle in hay` substring test. -/
def strContains (hay needle : String) : Bool :=
  occursIn needle.data hay.data

/-- The keyword test of `ensure_qgis_layer_fixtures_are_cleaned`:
`any(kw in fixture_name.lower() for kw in LAYER_KEYWORDS)`. -/
def hasLayerKeyword (fixture_name : String) : Bool :=
  LAYER_KEYWORDS.any (fun kw => strContains (strToLower fixture_name) kw)

/-- The value a fixture resolves to: either a `QgsMapLayer` instance or any
other Python object (`isinstance` test). -/
inductive FixtureValue where
  | layer (l : Layer)
  | other
deriving DecidableEq, Repr

/-- Observable calls the cleanup guard makes: `request.getfixturevalue(name)`,
`QgsProject.addMapLayer(layer)` and `QgsProject.removeMapLayer(layer)`. -/
inductive GuardEvent where
  | resolve (name : String)
  | add (layerId : String)
  | remove (layerId : String)
deriving DecidableEq, Repr

/-- Projects a trace event to the fixture name it resolved, if any. -/
def GuardEvent.resolveName : GuardEvent → Option String
  | .resolve n => some n
  | .add _ => none
  | .remove _ => none

/-- The `pytest` `request` object: the active fixture names, whether
`getfixturevalue` succeeds (it raises `AssertionError` for a fixture the
running test never requested), and the resolved value. -/
structure FixtureEnv where
  fixturenames : List String
  resolveOk : String → Bool
  value : String → FixtureValue

/-- `_set_layer_owner_to_project(layer)`: when the value is a live
(not-yet-destroyed) `QgsMapLayer` whose id is not among the keys of
`mapLayers(True)` (the VALID-only registry view), add it to the project and
immediately remove it.  Returns the new project state and the add/remove
events performed. -/
def _set_layer_owner_to_project (v : FixtureValue) (p : Project) :
    Project × List GuardEvent :=
  match v with
  | .layer l =>
      if !l.deleted && !((p.validLayers.map (fun x => x.id)).contains l.id) then
        ((p.addMapLayer l).removeMapLayer l.id, [.add l.id, .remove l.id])
      else (p, [])
  | .other => (p, [])

/-- One iteration of the loop in `ensure_qgis_layer_fixtures_are_cleaned`:
skip names without a layer keyword; otherwise resolve the fixture, and on an
`AssertionError` `continue`, else run `_set_layer_owner_to_project`. -/
def guardStep (env : FixtureEnv) (acc : Project × List GuardEvent)
    (fixture_name : String) : Project × List GuardEvent :=
  if hasLayerKeyword fixture_name then
    if env.resolveOk fixture_name then
      let res := _set_layer_owner_to_project (env.value fixture_name) acc.1
      (res.1, acc.2 ++ GuardEvent.resolve fixture_name :: res.2)
    else (acc.1, acc.2 ++ [GuardEvent.resolve fixture_name])
  else acc

/-- `ensure_qgis_layer_fixtures_are_cleaned(request)`. -/
def ensure_qgis_layer_fixtures_are_cleaned (env : FixtureEnv) (p : Project) :
    Project × List GuardEvent :=
  env.fixturenames.foldl (guardStep env) (p, [])

/-- `wait(wait_time_milliseconds)`.  `trace k` is the value `time.time()`
returns on its (k+1)-th call, in seconds (`trace 0` is `start`); the loop
guard `(time.time() - start) * 1000 < wait_time_milliseconds` is re-evaluated
with a fresh clock reading before every iteration, and each iteration calls
`QCoreApplication.processEvents()` once.  The result counts the
`processEvents` calls; `none` means the loop did not terminate within `fuel`
iterations. -/
def waitLoop (trace : Nat → Int) (wait_time_milliseconds : Int) :
    Nat → Nat → Option Nat
  | 0, _ => none
  | fuel + 1, k =>
      if (trace k - trace 0) * 1000 < wait_time_milliseconds then
        (waitLoop trace wait_time_milliseconds fuel (k + 1)).map (· + 1)
      else some 0

/-- `wait(wait_time_milliseconds)` with default argument `0`: the first guard
evaluation uses the second clock reading (index 1). -/
def wait (trace : Nat → Int) (wait_time_milliseconds : Int := 0)
    (fuel : Nat := 1) : Option Nat :=
  waitLoop trace wait_time_milliseconds fuel 1

/-! ### Concrete fixtures used by witnesses and counterexamples -/

/-- A sample layer with the given id, name, CRS, kind and flags. -/
def mkSampleLayer (lid nm : String) (c : CRS) (k : LayerKind)
    (spatial valid : Bool) : Layer :=
  { id := lid, name := nm, crs := c, extent := ⟨0, 0, 1, 1⟩, kind := k,
    isSpatial := spatial, isValid := valid, style := "style-" ++ lid,
    metadata := "meta-" ++ lid, source := "src-" ++ lid, deleted := false }

def crs4326 : CRS := mkCrs "EPSG:4326"

def crs3857 : CRS := mkCrs "EPSG:3857"

/-- Original spatial vector layer in "EPSG:3857". -/
def origC : Layer := mkSampleLayer "L1" "orig" crs3857 LayerKind.vector true true

/-- The clone the reprojection oracle produces, stamped "EPSG:4326". -/
def outC : Layer := mkSampleLayer "L2" "out" crs4326 LayerKind.vector true true

/-- Default oracle bundle for witnesses. -/
def envW : Env :=
  { reproject := fun _ _ => outC, styleSaveOk := fun _ => true,
    warpLoad := fun _ _ _ => outC, transform := fun r _ _ => r }

/-- Oracle bundle whose style serialization always fails. -/
def envSaveFail : Env := { envW with styleSaveOk := fun _ => false }

/-- Project of the C1 scenario: CRS "EPSG:4326", one mismatched vector layer. -/
def pC1 : Project :=
  { crs := crs4326, layers := [origC], tree := [TreeChild.layerRef "L1" "orig"] }

/-- A non-spatial layer (neither spatial vector nor spatial raster). -/
def otherL : Layer := mkSampleLayer "N1" "plain" crs4326 LayerKind.other false true

def pC2 : Project := { crs := crs4326, layers := [otherL], tree := [] }

def vA1 : Layer := mkSampleLayer "A1" "a1" crs3857 LayerKind.vector true true

def vB1 : Layer := mkSampleLayer "B1" "b1" crs4326 LayerKind.vector true true

def vA2 : Layer := mkSampleLayer "A2" "a2" crs3857 LayerKind.raster true true

/-- Spatial-layer CRS multiset {"EPSG:3857", "EPSG:4326", "EPSG:3857"}. -/
def pMulti : Project := { crs := crs4326, layers := [vA1, vB1, vA2], tree := [] }

/-- Project with no spatial layer. -/
def pNoSpatial : Project := { crs := crs3857, layers := [otherL], tree := [] }

def extL2 : Layer :=
  { mkSampleLayer "E2" "e2" crs4326 LayerKind.vector true true with
      extent := ⟨2, 2, 3, 3⟩ }

def extL1 : Layer := mkSampleLayer "E1" "e1" crs4326 LayerKind.vector true true

/-- Project with two valid layers, extents (0,0,1,1) and (2,2,3,3). -/
def pExtent : Project := { crs := crs4326, layers := [extL1, extL2], tree := [] }

/-- A live, valid raster layer not registered anywhere. -/
def rastL : Layer := mkSampleLayer "LR" "rast" crs4326 LayerKind.raster true true

def pEmpty : Project := { crs := crs4326, layers := [], tree := [] }

/-- `request` fixture of the C8 scenario. -/
def envFix : FixtureEnv :=
  { fixturenames := ["raster_fixture", "unrelated_fixture"],
    resolveOk := fun _ => true,
    value := fun n => if n == "raster_fixture" then FixtureValue.layer rastL
                      else FixtureValue.other }

/-- A registered-but-invalid live layer (C9 scenario). -/
def lInvalidC : Layer :=
  mkSampleLayer "LI" "inv" crs4326 LayerKind.vector true false

def pC9 : Project := { crs := crs4326, layers := [vB1, lInvalidC], tree := [] }

/-- Source layer of the C10 scenario (its tree node is named "n"). -/
def srcA : Layer := mkSampleLayer "A" "srcA" crs4326 LayerKind.vector true true

/-- An INVALID target layer (C10: inserted into the tree, never registered). -/
def tgtT : Layer := mkSampleLayer "T" "tgt" crs4326 LayerKind.vector true false

/-- Tree with two same-named siblings "n" around an unrelated sibling. -/
def pC10 : Project :=
  { crs := crs4326, layers := [srcA],
    tree := [TreeChild.layerRef "A" "n", TreeChild.layerRef "B" "x",
             TreeChild.layerRef "C" "n"] }

/-! ### Theorems -/

/-- C6: for every rectangle (degenerate ones included) and CRSs equal by
authority id, `transform_rectangle` returns the input unchanged — the
identity fast path applies whenever the two CRSs agree on authority id. -/
theorem transform_rectangle_identity_same_authid (env : Env)
    (rectangle : Rect) (in_crs out_crs : CRS)
    (h : in_crs.authid = out_crs.authid) :
    transform_rectangle env rectangle in_crs out_crs = rectangle := by
  simp [transform_rectangle, h]

/-- Witness for C6, on a degenerate zero-area rectangle and two CRS values
that agree on authority id only. -/
theorem transform_rectangle_identity_same_authid_witness :
    transform_rectangle envW ⟨7, 7, 7, 7⟩ ⟨"EPSG:4326", true⟩
      ⟨"EPSG:4326", false⟩ = ⟨7, 7, 7, 7⟩ :=
  transform_rectangle_identity_same_authid envW ⟨7, 7, 7, 7⟩ _ _ rfl

/-- C3 counterexample: with the default duration 0, `wait` processes pending
events ZERO times, not exactly once — the loop guard
`(time.time() - start) * 1000 < 0` fails before the first `processEvents`
call (clock trace `k ↦ k` seconds). -/
theorem wait_zero_events_cex :
    wait (fun k => (k : Int)) 0 5 = some 0 ∧
      (some 0 : Option Nat) ≠ some 1 := by
  constructor
  · decide
  · decide

/-- C3 (amended): under a nondecreasing clock, `wait` with its default
duration 0 returns as soon as the elapsed-time check fails, having processed
pending events zero times. -/
theorem wait_zero_processes_no_events (trace : Nat → Int)
    (hmono : ∀ k, trace 0 ≤ trace k) (fuel : Nat) (hfuel : 1 ≤ fuel) :
    wait trace 0 fuel = some 0 := by
  obtain ⟨n, rfl⟩ : ∃ n, fuel = n + 1 := ⟨fuel - 1, by omega⟩
  have h : (0 : Int) ≤ (trace 1 - trace 0) * 1000 := by
    have h1 := hmono 1
    nlinarith
  unfold wait waitLoop
  rw [if_neg (not_lt.mpr h)]

/-- Witness for C3's amended theorem at the concrete clock `k ↦ k`. -/
theorem wait_zero_processes_no_events_witness :
    wait (fun k => (k : Int)) 0 3 = some 0 :=
  wait_zero_processes_no_events (fun k => (k : Int))
    (fun k => by simp) 3 (by norm_num)

/-- C5: `set_map_crs_based_on_layers` sets the Project CRS to the most
frequent CRS authority id among the spatial layers (ties broken by
first-encountered order, i.e. minimal first-occurrence index), to the fixed
default "EPSG:4326" when there is no spatial layer, and touches nothing
else (registry and tree unchanged; the CRS field is (re)assigned in every
case). -/
theorem map_crs_set_to_most_frequent_authid (p : Project) :
    (spatialAuthids p = [] →
      (set_map_crs_based_on_layers p).crs = DEFAULT_CRS) ∧
    (spatialAuthids p ≠ [] →
      ∃ k, most_common_key (spatialAuthids p) = some k ∧
        (set_map_crs_based_on_layers p).crs = mkCrs k ∧
        k ∈ spatialAuthids p ∧
        (∀ k', k' ∈ spatialAuthids p →
          (spatialAuthids p).count k' ≤ (spatialAuthids p).count k) ∧
        (∀ k', k' ∈ spatialAuthids p →
          (spatialAuthids p).count k' = (spatialAuthids p).count k →
          (spatialAuthids p).indexOf k ≤ (spatialAuthids p).indexOf k')) ∧
    (set_map_crs_based_on_layers p).layers = p.layers ∧
    (set_map_crs_based_on_layers p).tree = p.tree := by
  refine ⟨?_, ?_, ?_, ?_⟩
  · intro h
    simp [set_map_crs_based_on_layers, most_common_key, h]
  · intro h
    obtain ⟨k, hk⟩ : ∃ k, most_common_key (spatialAuthids p) = some k := by
      cases hmc : most_common_key (spatialAuthids p) with
      | none => exact absurd (List.argmax_eq_none.mp hmc) h
      | some k => exact ⟨k, rfl⟩
    have hk2 : (spatialAuthids p).argmax
        (fun s => (spatialAuthids p).count s) = some k := hk
    have hk' : k ∈ (spatialAuthids p).argmax
        (fun s => (spatialAuthids p).count s) := Option.mem_def.mpr hk2
    refine ⟨k, hk, ?_, List.argmax_mem hk', ?_, ?_⟩
    · simp [set_map_crs_based_on_layers, hk]
    · intro k' hmem
      exact List.le_of_mem_argmax hmem hk'
    · intro k' hmem hcnt
      exact List.index_of_argmax hk' hmem (le_of_eq hcnt.symm)
  · simp [set_map_crs_based_on_layers]
  · simp [set_map_crs_based_on_layers]

/-- Witness for C5: CRS multiset {A, B, A} elects A = "EPSG:3857"; no
spatial layers elects the default. -/
theorem map_crs_set_to_most_frequent_authid_witness :
    (set_map_crs_based_on_layers pMulti).crs = mkCrs "EPSG:3857" ∧
    (set_map_crs_based_on_layers pNoSpatial).crs = DEFAULT_CRS := by
  constructor
  · obtain ⟨k, hk, hcrs, -, -, -⟩ :=
      (map_crs_set_to_most_frequent_authid pMulti).2.1 (by decide)
    have hk3857 : most_common_key (spatialAuthids pMulti) =
        some "EPSG:3857" := by decide
    rw [hk] at hk3857
    rw [hcrs, Option.some.inj hk3857]
  · exact (map_crs_set_to_most_frequent_authid pNoSpatial).1 (by decide)

theorem addMapLayer_tree (p : Project) (l : Layer) :
    (p.addMapLayer l).tree = p.tree := by
  unfold Project.addMapLayer
  split <;> rfl

theorem ite_addMapLayer_tree (c : Prop) [Decidable c] (p : Project)
    (l : Layer) : (if c then p.addMapLayer l else p).tree = p.tree := by
  split
  · exact addMapLayer_tree p l
  · rfl

theorem copiedLayer_id (env : Env) (a b : Layer) :
    (copiedLayer env a b).id = b.id := by
  cases h : env.styleSaveOk a <;> simp [copiedLayer, h]

theorem copiedLayer_crs (env : Env) (a b : Layer) :
    (copiedLayer env a b).crs = b.crs := by
  cases h : env.styleSaveOk a <;> simp [copiedLayer, h]

theorem copiedLayer_kind (env : Env) (a b : Layer) :
    (copiedLayer env a b).kind = b.kind := by
  cases h : env.styleSaveOk a <;> simp [copiedLayer, h]

theorem copiedLayer_isValid (env : Env) (a b : Layer) :
    (copiedLayer env a b).isValid = b.isValid := by
  cases h : env.styleSaveOk a <;> simp [copiedLayer, h]

theorem copiedLayer_name (env : Env) (a b : Layer) :
    (copiedLayer env a b).name = a.name := by
  cases h : env.styleSaveOk a <;> simp [copiedLayer, h]

theorem copiedLayer_metadata (env : Env) (a b : Layer) :
    (copiedLayer env a b).metadata = a.metadata := by
  cases h : env.styleSaveOk a <;> simp [copiedLayer, h]

theorem copiedLayer_style (env : Env) (a b : Layer) :
    (copiedLayer env a b).style =
      if env.styleSaveOk a then a.style else b.style := by
  cases h : env.styleSaveOk a <;> simp [copiedLayer, h]

/-- Evaluation of `copy_layer_style_and_position` once the tree lookups are
known to succeed. -/
theorem copy_layer_eq (env : Env) (layer1 layer2 : Layer) (tmp_path : String)
    (p : Project) (node : TreeChild) (i : Nat)
    (hfind : findLayerNode p.tree layer1 = some node)
    (hidx : lastNameIndex p.tree node.childName = some i) :
    copy_layer_style_and_position env layer1 layer2 tmp_path p =
      some ({ (if (copiedLayer env layer1 layer2).isValid
                then p.addMapLayer (copiedLayer env layer1 layer2) else p) with
                tree := p.tree.insertIdx (i + 1)
                  (TreeChild.layerRef layer2.id layer1.name) },
            copiedLayer env layer1 layer2) := by
  simp only [copy_layer_style_and_position]
  rw [ite_addMapLayer_tree]
  simp only [hfind, hidx, copiedLayer_id, copiedLayer_name]

theorem lastNameIndexAux_append (name : String) (xs ys : List TreeChild)
    (i : Nat) (acc : Option Nat) :
    lastNameIndexAux name (xs ++ ys) i acc =
      lastNameIndexAux name ys (i + xs.length)
        (lastNameIndexAux name xs i acc) := by
  induction xs generalizing i acc with
  | nil => simp [lastNameIndexAux]
  | cons c cs ih =>
      simp only [List.cons_append, lastNameIndexAux, List.length_cons,
        List.append_eq]
      rw [ih, show i + 1 + cs.length = i + (cs.length + 1) from by omega]

theorem lastNameIndexAux_no_match (name : String) (cs : List TreeChild)
    (i : Nat) (acc : Option Nat) (h : ∀ c ∈ cs, c.childName ≠ name) :
    lastNameIndexAux name cs i acc = acc := by
  induction cs generalizing i acc with
  | nil => rfl
  | cons c cs ih =>
      have hc : (c.childName == name) = false :=
        beq_eq_false_iff_ne.mpr (h c (List.mem_cons_self c cs))
      simp only [lastNameIndexAux, hc, Bool.false_eq_true, if_false]
      exact ih _ _ (fun x hx => h x (List.mem_cons_of_mem c hx))

/-- When a later sibling `node2` shares `node`'s name and nothing after it
does, the name-keyed index is `node2`'s index, not `node`'s. -/
theorem lastNameIndex_last_sibling (pre mid post : List TreeChild)
    (node node2 : TreeChild) (hname : node2.childName = node.childName)
    (hpost : ∀ c ∈ post, c.childName ≠ node.childName) :
    lastNameIndex (pre ++ node :: mid ++ node2 :: post) node.childName =
      some (pre.length + mid.length + 1) := by
  unfold lastNameIndex
  rw [lastNameIndexAux_append]
  simp only [lastNameIndexAux, beq_self_eq_true, if_true]
  rw [lastNameIndexAux_append]
  simp only [lastNameIndexAux, hname, beq_self_eq_true, if_true]
  rw [lastNameIndexAux_no_match _ _ _ _ hpost]
  simp only [Option.some.injEq, List.length_append, List.length_cons]
  omega

/-- C7: when saving the source layer's style fails, the call still succeeds:
the target layer keeps its own (default) style but receives the source's
metadata and display name verbatim, and is still inserted into the tree
immediately after the name-keyed sibling index. -/
theorem copy_style_save_failure_degrades_silently (env : Env)
    (layer1 layer2 : Layer) (tmp_path : String) (p : Project)
    (node : TreeChild) (i : Nat)
    (hsave : env.styleSaveOk layer1 = false)
    (hfind : findLayerNode p.tree layer1 = some node)
    (hidx : lastNameIndex p.tree node.childName = some i) :
    ∃ p' l2, copy_layer_style_and_position env layer1 layer2 tmp_path p =
        some (p', l2) ∧
      l2.style = layer2.style ∧
      l2.metadata = layer1.metadata ∧
      l2.name = layer1.name ∧
      p'.tree = p.tree.insertIdx (i + 1)
        (TreeChild.layerRef layer2.id layer1.name) := by
  refine ⟨_, _, copy_layer_eq env layer1 layer2 tmp_path p node i hfind hidx,
    ?_, ?_, ?_, ?_⟩
  · rw [copiedLayer_style, hsave]
    simp
  · exact copiedLayer_metadata env layer1 layer2
  · exact copiedLayer_name env layer1 layer2
  · rfl

/-- Witness for C7: concrete project, style save forced to fail. -/
theorem copy_style_save_failure_degrades_silently_witness :
    ∃ p' l2, copy_layer_style_and_position envSaveFail origC outC "/tmp" pC1 =
        some (p', l2) ∧
      l2.style = outC.style ∧
      l2.metadata = origC.metadata ∧
      l2.name = origC.name ∧
      p'.tree = pC1.tree.insertIdx 1 (TreeChild.layerRef outC.id origC.name) :=
  copy_style_save_failure_degrades_silently envSaveFail origC outC "/tmp" pC1
    (TreeChild.layerRef "L1" "orig") 0 rfl (by decide) (by decide)

/-- C10: when the source node shares its display name with later siblings,
the insertion index comes from the LAST same-named sibling (the dict keeps
the highest index per name), so the target is inserted immediately after
that sibling rather than after the source's own position; the insertion
happens even when the target layer is invalid (and hence never registered
with the Project). -/
theorem copy_inserts_after_last_same_named_sibling (env : Env)
    (layer1 layer2 : Layer) (tmp_path : String) (p : Project)
    (pre mid post : List TreeChild) (node node2 : TreeChild)
    (htree : p.tree = pre ++ node :: mid ++ node2 :: post)
    (hfind : findLayerNode p.tree layer1 = some node)
    (hname : node2.childName = node.childName)
    (hpost : ∀ c ∈ post, c.childName ≠ node.childName) :
    ∃ p' l2, copy_layer_style_and_position env layer1 layer2 tmp_path p =
        some (p', l2) ∧
      p'.tree = p.tree.insertIdx (pre.length + mid.length + 2)
        (TreeChild.layerRef layer2.id layer1.name) ∧
      (layer2.isValid = false → p'.layers = p.layers) := by
  have hidx : lastNameIndex p.tree node.childName =
      some (pre.length + mid.length + 1) := by
    rw [htree]
    exact lastNameIndex_last_sibling pre mid post node node2 hname hpost
  refine ⟨_, _, copy_layer_eq env layer1 layer2 tmp_path p node
    (pre.length + mid.length + 1) hfind hidx, rfl, ?_⟩
  intro hval
  have h2 : (copiedLayer env layer1 layer2).isValid = false := by
    rw [copiedLayer_isValid, hval]
  simp [h2]

/-- Witness for C10: siblings named "n" at indices 0 (the source) and 2; the
invalid target is inserted at index 3, after the LAST "n", and the registry
is untouched. -/
theorem copy_inserts_after_last_same_named_sibling_witness :
    ∃ p' l2, copy_layer_style_and_position envW srcA tgtT "/tmp" pC10 =
        some (p', l2) ∧
      p'.tree = pC10.tree.insertIdx 3 (TreeChild.layerRef tgtT.id srcA.name) ∧
      (tgtT.isValid = false → p'.layers = pC10.layers) :=
  copy_inserts_after_last_same_named_sibling envW srcA tgtT "/tmp" pC10
    [] [TreeChild.layerRef "B" "x"] [] (TreeChild.layerRef "A" "n")
    (TreeChild.layerRef "C" "n") (by decide) (by decide) rfl (by simp)

theorem containsRect_refl (a : Rect) : a.containsRect a :=
  ⟨le_refl _, le_refl _, le_refl _, le_refl _⟩

theorem containsRect_trans {a b c : Rect} (h1 : a.containsRect b)
    (h2 : b.containsRect c) : a.containsRect c := by
  obtain ⟨x1, y1, z1, w1⟩ := h1
  obtain ⟨x2, y2, z2, w2⟩ := h2
  exact ⟨le_trans x1 x2, le_trans y1 y2, le_trans z2 z1, le_trans w2 w1⟩

theorem combine_contains_left (a b : Rect) :
    (a.combineExtentWith b).containsRect a :=
  ⟨min_le_left _ _, min_le_left _ _, le_max_left _ _, le_max_left _ _⟩

theorem combine_contains_right (a b : Rect) :
    (a.combineExtentWith b).containsRect b :=
  ⟨min_le_right _ _, min_le_right _ _, le_max_right _ _, le_max_right _ _⟩

theorem contains_combine {S a b : Rect} (ha : S.containsRect a)
    (hb : S.containsRect b) : S.containsRect (a.combineExtentWith b) := by
  obtain ⟨x1, y1, z1, w1⟩ := ha
  obtain ⟨x2, y2, z2, w2⟩ := hb
  exact ⟨le_min x1 x2, le_min y1 y2, max_le z1 z2, max_le w1 w2⟩

/-- The `combineExtentWith` fold computes the least rectangle covering its
seed and every folded element. -/
theorem foldl_combine_spec {α : Type} (g : α → Rect) (xs : List α)
    (init : Rect) :
    ((xs.foldl (fun e x => e.combineExtentWith (g x)) init).containsRect init ∧
     ∀ x ∈ xs,
       (xs.foldl (fun e x => e.combineExtentWith (g x)) init).containsRect
         (g x)) ∧
    (∀ S : Rect, S.containsRect init → (∀ x ∈ xs, S.containsRect (g x)) →
      S.containsRect
        (xs.foldl (fun e x => e.combineExtentWith (g x)) init)) := by
  induction xs generalizing init with
  | nil =>
      refine ⟨⟨containsRect_refl init, ?_⟩, ?_⟩
      · intro x hx
        cases hx
      · intro S hS _
        exact hS
  | cons x xs ih =>
      simp only [List.foldl_cons]
      obtain ⟨⟨hinit, hall⟩, hmin⟩ := ih (init.combineExtentWith (g x))
      refine ⟨⟨?_, ?_⟩, ?_⟩
      · exact containsRect_trans hinit (combine_contains_left _ _)
      · intro y hy
        rcases List.mem_cons.mp hy with rfl | hy
        · exact containsRect_trans hinit (combine_contains_right _ _)
        · exact hall y hy
      · intro S hS hall'
        exact hmin S (contains_combine hS (hall' x (List.mem_cons_self x xs)))
          (fun y hy => hall' y (List.mem_cons_of_mem x hy))

/-- C4: `get_common_extent_from_all_layers` returns nothing exactly when the
Project has no valid layers; otherwise it returns the smallest rectangle
containing every valid layer's extent reprojected into the Project CRS.
(It is read-only by construction: it returns only an `Option Rect` and no
Project.) -/
theorem common_extent_is_least_covering_rectangle (env : Env) (p : Project) :
    (get_common_extent_from_all_layers env p = none ↔ p.validLayers = []) ∧
    (∀ R, get_common_extent_from_all_layers env p = some R →
      (∀ l ∈ p.validLayers,
        R.containsRect (transform_rectangle env l.extent l.crs p.crs)) ∧
      (∀ S : Rect, (∀ l ∈ p.validLayers,
          S.containsRect (transform_rectangle env l.extent l.crs p.crs)) →
        S.containsRect R)) := by
  cases hv : p.validLayers with
  | nil =>
      constructor
      · simp [get_common_extent_from_all_layers, hv]
      · intro R hR
        simp [get_common_extent_from_all_layers, hv] at hR
  | cons l rest =>
      constructor
      · simp [get_common_extent_from_all_layers, hv]
      · intro R hR
        simp only [get_common_extent_from_all_layers, hv,
          Option.some.injEq] at hR
        subst hR
        obtain ⟨⟨hinit, hall⟩, hmin⟩ := foldl_combine_spec
          (fun layer : Layer =>
            transform_rectangle env layer.extent layer.crs p.crs)
          rest (transform_rectangle env l.extent l.crs p.crs)
        constructor
        · intro y hy
          rcases List.mem_cons.mp hy with rfl | hy
          · exact hinit
          · exact hall y hy
        · intro S hS
          exact hmin S (hS l (List.mem_cons_self l rest))
            (fun y hy => hS y (List.mem_cons_of_mem l hy))

/-- Witness for C4 on a two-layer project: the computed common extent
(0,0,3,3) covers the second layer's (reprojected) extent (2,2,3,3). -/
theorem common_extent_is_least_covering_rectangle_witness :
    Rect.containsRect ⟨0, 0, 3, 3⟩ ⟨2, 2, 3, 3⟩ := by
  have h := ((common_extent_is_least_covering_rectangle envW pExtent).2
    ⟨0, 0, 3, 3⟩ (by decide)).1 extL2 (by decide)
  have he : transform_rectangle envW extL2.extent extL2.crs pExtent.crs =
      ⟨2, 2, 3, 3⟩ := by decide
  rwa [he] at h

theorem setLayerOwner_events_no_resolve (v : FixtureValue) (q : Project) :
    (_set_layer_owner_to_project v q).2.filterMap GuardEvent.resolveName =
      [] := by
  cases v with
  | layer l =>
      simp only [_set_layer_owner_to_project]
      split <;> rfl
  | other => rfl

theorem ensure_foldl_resolves (env : FixtureEnv) (names : List String) :
    ∀ acc : Project × List GuardEvent,
      ((names.foldl (guardStep env) acc).2).filterMap GuardEvent.resolveName =
        acc.2.filterMap GuardEvent.resolveName ++
          names.filter hasLayerKeyword := by
  induction names with
  | nil =>
      intro acc
      simp
  | cons n ns ih =>
      intro acc
      simp only [List.foldl_cons, List.filter_cons]
      cases hkw : hasLayerKeyword n with
      | false =>
          rw [show guardStep env acc n = acc from by
            unfold guardStep; rw [if_neg (by simp [hkw])]]
          rw [ih acc]
          simp
      | true =>
          cases hro : env.resolveOk n with
          | true =>
              rw [show guardStep env acc n =
                  ((_set_layer_owner_to_project (env.value n) acc.1).1,
                   acc.2 ++ GuardEvent.resolve n ::
                     (_set_layer_owner_to_project (env.value n) acc.1).2)
                from by unfold guardStep; rw [if_pos hkw, if_pos hro]]
              rw [ih]
              simp [List.filterMap_append, GuardEvent.resolveName,
                setLayerOwner_events_no_resolve]
          | false =>
              rw [show guardStep env acc n =
                  (acc.1, acc.2 ++ [GuardEvent.resolve n]) from by
                unfold guardStep; rw [if_pos hkw, if_neg (by simp [hro])]]
              rw [ih]
              simp [List.filterMap_append, GuardEvent.resolveName]

/-- C8: the cleanup guard attempts resolution exactly for the active
fixtures whose (lowercased) names contain one of the layer keywords, in
order — fixtures without a keyword are never resolved; a resolution that
fails contributes nothing but the attempt (skipped silently); and a
resolved live layer not currently among the Project's valid layers causes
exactly one add followed by one remove against the Project. -/
theorem fixture_cleanup_guard_behavior (env : FixtureEnv) (p : Project) :
    ((ensure_qgis_layer_fixtures_are_cleaned env p).2.filterMap
        GuardEvent.resolveName = env.fixturenames.filter hasLayerKeyword) ∧
    (∀ (l : Layer) (q : Project), l.deleted = false →
      ((q.validLayers.map (fun x => x.id)).contains l.id) = false →
      (_set_layer_owner_to_project (FixtureValue.layer l) q).2 =
        [GuardEvent.add l.id, GuardEvent.remove l.id]) ∧
    (∀ (name : String) (acc : Project × List GuardEvent),
      hasLayerKeyword name = true → env.resolveOk name = false →
      guardStep env acc name = (acc.1, acc.2 ++ [GuardEvent.resolve name])) := by
  refine ⟨?_, ?_, ?_⟩
  · have h := ensure_foldl_resolves env env.fixturenames (p, [])
    simpa [ensure_qgis_layer_fixtures_are_cleaned] using h
  · intro l q hdel hreg
    simp only [_set_layer_owner_to_project]
    rw [if_pos (by rw [hdel, hreg]; rfl)]
  · intro name acc hkw hro
    unfold guardStep
    rw [if_pos hkw, if_neg (by simp [hro])]

/-- Witness for C8: "raster_fixture" is resolved (once) and its live,
unregistered layer gets exactly one add then one remove;
"unrelated_fixture" is filtered out and never resolved. -/
theorem fixture_cleanup_guard_behavior_witness :
    (ensure_qgis_layer_fixtures_are_cleaned envFix pEmpty).2.filterMap
        GuardEvent.resolveName = ["raster_fixture"] ∧
    (_set_layer_owner_to_project (FixtureValue.layer rastL) pEmpty).2 =
      [GuardEvent.add "LR", GuardEvent.remove "LR"] := by
  constructor
  · rw [(fixture_cleanup_guard_behavior envFix pEmpty).1]
    decide
  · exact (fixture_cleanup_guard_behavior envFix pEmpty).2.1 rastL pEmpty rfl
      (by decide)

theorem filter_map_replace (ls : List Layer) (l : Layer) :
    (ls.map (fun x => if x.id == l.id then l else x)).filter
        (fun x => x.id != l.id) =
      ls.filter (fun x => x.id != l.id) := by
  induction ls with
  | nil => rfl
  | cons y ys ih =>
      rw [List.map_cons]
      by_cases hy : y.id = l.id
      · rw [if_pos (beq_iff_eq.mpr hy)]
        rw [List.filter_cons_of_neg (by simp),
          List.filter_cons_of_neg (by simp [hy])]
        exact ih
      · rw [if_neg (by simp [hy])]
        rw [List.filter_cons_of_pos (by simp [hy]),
          List.filter_cons_of_pos (by simp [hy])]
        rw [ih]

/-- C9: a live layer that is registered but currently invalid passes the
guard's already-registered check (which consults only the VALID layers), so
the add/remove cycle still runs and its net effect is that the layer's
registry entry is gone. -/
theorem cleanup_cycles_already_registered_invalid_layer (l : Layer)
    (p : Project) (hmem : l ∈ p.layers) (hinvalid : l.isValid = false)
    (hlive : l.deleted = false)
    (hnodup : (p.layers.map (fun x => x.id)).Nodup) :
    _set_layer_owner_to_project (FixtureValue.layer l) p =
      ({ p with layers := p.layers.filter (fun x => x.id != l.id) },
       [GuardEvent.add l.id, GuardEvent.remove l.id]) := by
  have hnm : l.id ∉ p.validLayers.map (fun x => x.id) := by
    intro hc
    obtain ⟨y, hy, hid⟩ := List.mem_map.mp hc
    have hy' : y ∈ p.layers := List.mem_of_mem_filter hy
    have hyv : (fun x : Layer => x.isValid) y = true := List.of_mem_filter hy
    have heq : y = l := List.inj_on_of_nodup_map hnodup hy' hmem hid
    rw [heq] at hyv
    simp only [hinvalid] at hyv
    cases hyv
  have hreg : ((p.validLayers.map (fun x => x.id)).contains l.id) = false := by
    simpa using hnm
  have hany : (p.layers.any (fun x => x.id == l.id)) = true :=
    List.any_eq_true.mpr ⟨l, hmem, beq_self_eq_true l.id⟩
  simp only [_set_layer_owner_to_project]
  rw [if_pos (by rw [hlive, hreg]; rfl)]
  unfold Project.addMapLayer Project.removeMapLayer
  rw [if_pos hany]
  simp only [filter_map_replace]

/-- Witness for C9: an invalid registered layer "LI" next to a valid "B1";
the cycle leaves only "B1" registered. -/
theorem cleanup_cycles_already_registered_invalid_layer_witness :
    _set_layer_owner_to_project (FixtureValue.layer lInvalidC) pC9 =
      ({ pC9 with
          layers := pC9.layers.filter (fun x => x.id != lInvalidC.id) },
       [GuardEvent.add lInvalidC.id, GuardEvent.remove lInvalidC.id]) :=
  cleanup_cycles_already_registered_invalid_layer lInvalidC pC9 (by decide)
    rfl rfl (by decide)

theorem crsFallback_id (b : Layer) (c : CRS) :
    (if !b.crs.valid then b.setCrs c else b).id = b.id := by
  cases hv : b.crs.valid <;> simp [Layer.setCrs, hv]

theorem crsFallback_kind (b : Layer) (c : CRS) :
    (if !b.crs.valid then b.setCrs c else b).kind = b.kind := by
  cases hv : b.crs.valid <;> simp [Layer.setCrs, hv]

theorem crsFallback_isValid (b : Layer) (c : CRS) :
    (if !b.crs.valid then b.setCrs c else b).isValid = b.isValid := by
  cases hv : b.crs.valid <;> simp [Layer.setCrs, hv]

theorem crsFallback_style (b : Layer) (c : CRS) :
    (if !b.crs.valid then b.setCrs c else b).style = b.style := by
  cases hv : b.crs.valid <;> simp [Layer.setCrs, hv]

theorem crsFallback_metadata (b : Layer) (c : CRS) :
    (if !b.crs.valid then b.setCrs c else b).metadata = b.metadata := by
  cases hv : b.crs.valid <;> simp [Layer.setCrs, hv]

/-- The invalid-CRS fallback of the reprojection loops: the produced layer
carries the target CRS whenever the algorithm either stamped it or left the
CRS invalid. -/
theorem crsFallback_crs (b : Layer) (c : CRS)
    (h : b.crs.valid = true → b.crs = c) :
    (if !b.crs.valid then b.setCrs c else b).crs = c := by
  cases hv : b.crs.valid
  · simp [Layer.setCrs, hv]
  · simp only [hv, Bool.not_true, Bool.false_eq_true, if_false]
    exact h hv

/-- C2 (amended): a layer in the input list that is neither a spatial vector
layer nor a spatial raster layer is skipped by both reprojection loops — no
replacement is created and the registry gains nothing and the tree is
untouched — but it does NOT remain registered: the final unconditional
removal step removes every input layer's id from the Project, ignored
layers included. -/
theorem ignored_layers_not_replaced_but_removed (env : Env)
    (layers : List Layer) (output_path : String) (p : Project)
    (h : ∀ l ∈ layers,
      (l.kind == LayerKind.vector && l.isSpatial) = false ∧
      (l.kind == LayerKind.raster && l.isSpatial) = false) :
    replace_layers_with_reprojected_clones env layers output_path p =
      some { p with layers := (p.layers.filter
                 (fun l => !((layers.map (fun x => x.id)).contains l.id))) } := by
  have hvf : layers.filter
      (fun l => l.kind == LayerKind.vector && l.isSpatial) = [] := by
    rw [List.filter_eq_nil_iff]
    intro l hl
    simp [(h l hl).1]
  have hrf : layers.filter
      (fun l => l.kind == LayerKind.raster && l.isSpatial) = [] := by
    rw [List.filter_eq_nil_iff]
    intro l hl
    simp [(h l hl).2]
  simp only [replace_layers_with_reprojected_clones]
  rw [hvf, hrf]
  simp only [processVectorLayers, processRasterLayers, Option.bind_eq_bind,
    Option.some_bind]
  rfl

/-- Witness for C2's amended theorem: the non-spatial layer is removed. -/
theorem ignored_layers_not_replaced_but_removed_witness :
    replace_layers_with_reprojected_clones envW [otherL] "/tmp" pC2 =
      some { pC2 with layers := (pC2.layers.filter
                 (fun l => !(([otherL].map (fun x => x.id)).contains l.id))) } :=
  ignored_layers_not_replaced_but_removed envW [otherL] "/tmp" pC2 (by decide)

/-- C2 counterexample: the claim says a non-spatial layer in the input list
"remains registered after the call"; on the concrete project `pC2` holding
exactly the registered non-spatial layer `otherL`, the call returns a
project whose registry is empty — the layer was removed. -/
theorem ignored_layer_still_removed_cex :
    otherL ∈ pC2.layers ∧
    replace_layers_with_reprojected_clones envW [otherL] "/tmp" pC2 =
      some { crs := crs4326, layers := [], tree := [] } := by
  constructor
  · decide
  · decide

/-- C1: for a Project holding one spatial vector layer whose CRS differs
from the Project CRS, `replace_layers_with_reprojected_clones` on that layer
leaves the Project containing exactly one new vector layer whose CRS equals
the Project CRS (stamped by the algorithm or forced by the fallback), with
the original's name, style and metadata, inserted into the layer tree
immediately after the original node's former index (0, so at position 1),
and the original layer's id no longer registered.  The oracle hypotheses
state the documented contract of `native:reprojectlayer`: it yields a fresh
valid vector layer carrying the target CRS unless it could not stamp a CRS
at all. -/
theorem replace_single_mismatched_vector_layer (env : Env) (orig : Layer)
    (output_path : String) (p : Project)
    (hlayers : p.layers = [orig])
    (htree : p.tree = [TreeChild.layerRef orig.id orig.name])
    (hkind : orig.kind = LayerKind.vector) (hspat : orig.isSpatial = true)
    (_hdiff : orig.crs.authid ≠ p.crs.authid)
    (houtcrs : (env.reproject orig p.crs).crs.valid = true →
      (env.reproject orig p.crs).crs = p.crs)
    (houtkind : (env.reproject orig p.crs).kind = LayerKind.vector)
    (houtvalid : (env.reproject orig p.crs).isValid = true)
    (hfresh : (env.reproject orig p.crs).id ≠ orig.id)
    (hsave : env.styleSaveOk orig = true) :
    ∃ p' new,
      replace_layers_with_reprojected_clones env [orig] output_path p =
        some p' ∧
      p'.layers = [new] ∧
      new.crs = p.crs ∧ new.name = orig.name ∧ new.style = orig.style ∧
      new.metadata = orig.metadata ∧
      new.kind = LayerKind.vector ∧ new.isValid = true ∧
      new.id ≠ orig.id ∧
      p'.tree = [TreeChild.layerRef orig.id orig.name,
                 TreeChild.layerRef new.id orig.name] := by
  obtain ⟨out2, hout2⟩ : ∃ o,
      (if !(env.reproject orig p.crs).crs.valid
       then (env.reproject orig p.crs).setCrs p.crs
       else env.reproject orig p.crs) = o := ⟨_, rfl⟩
  have hout2id : out2.id = (env.reproject orig p.crs).id := by
    rw [← hout2]; exact crsFallback_id _ _
  have hout2kind : out2.kind = (env.reproject orig p.crs).kind := by
    rw [← hout2]; exact crsFallback_kind _ _
  have hout2valid : out2.isValid = (env.reproject orig p.crs).isValid := by
    rw [← hout2]; exact crsFallback_isValid _ _
  have hout2style : out2.style = (env.reproject orig p.crs).style := by
    rw [← hout2]; exact crsFallback_style _ _
  have hout2crs : out2.crs = p.crs := by
    rw [← hout2]; exact crsFallback_crs _ _ houtcrs
  -- the filters of the two loops
  have hvf : [orig].filter
      (fun l => l.kind == LayerKind.vector && l.isSpatial) = [orig] := by
    rw [List.filter_cons_of_pos (by rw [hkind, hspat]; rfl), List.filter_nil]
  have hrf : [orig].filter
      (fun l => l.kind == LayerKind.raster && l.isSpatial) = [] := by
    rw [List.filter_cons_of_neg ?_, List.filter_nil]
    rw [hkind, show (LayerKind.vector == LayerKind.raster) = false from rfl,
      Bool.false_and]
    simp
  -- the tree lookups of the style/position copier
  have hfind : findLayerNode p.tree orig =
      some (TreeChild.layerRef orig.id orig.name) := by
    rw [htree]
    simp [findLayerNode]
  have hidx : lastNameIndex p.tree
      (TreeChild.layerRef orig.id orig.name).childName = some 0 := by
    rw [htree]
    simp [lastNameIndex, lastNameIndexAux, TreeChild.childName]
  have hcopy := copy_layer_eq env orig out2 output_path p
    (TreeChild.layerRef orig.id orig.name) 0 hfind hidx
  -- the copied clone and its fields
  have hnval : (copiedLayer env orig out2).isValid = true := by
    rw [copiedLayer_isValid, hout2valid]; exact houtvalid
  have hnid : (copiedLayer env orig out2).id =
      (env.reproject orig p.crs).id := by
    rw [copiedLayer_id, hout2id]
  have hbeq : (orig.id == (copiedLayer env orig out2).id) = false := by
    rw [hnid]
    exact beq_eq_false_iff_ne.mpr (Ne.symm hfresh)
  -- evaluate the whole pipeline
  have hrep : replace_layers_with_reprojected_clones env [orig] output_path p =
      some (({ (if (copiedLayer env orig out2).isValid
                 then p.addMapLayer (copiedLayer env orig out2) else p) with
                 tree := p.tree.insertIdx (0 + 1)
                   (TreeChild.layerRef out2.id orig.name) }).removeMapLayers
             ([orig].map (fun l : Layer => l.id))) := by
    simp only [replace_layers_with_reprojected_clones]
    rw [hvf, hrf]
    simp only [processVectorLayers, processRasterLayers]
    rw [hout2, hcopy]
    simp only [Option.bind_eq_bind, Option.some_bind]
  refine ⟨_, copiedLayer env orig out2, hrep, ?_, ?_, ?_, ?_, ?_, ?_, ?_, ?_, ?_⟩
  · -- registry: exactly the clone remains
    rw [if_pos hnval]
    unfold Project.removeMapLayers Project.addMapLayer
    rw [hlayers]
    rw [if_neg (by simp [hbeq])]
    simp only [List.cons_append, List.nil_append, List.map_cons, List.map_nil]
    rw [List.filter_cons_of_neg (by simp)]
    rw [List.filter_cons_of_pos (by simp [hnid]; exact hfresh)]
    rw [List.filter_nil]
  · rw [copiedLayer_crs, hout2crs]
  · exact copiedLayer_name env orig out2
  · rw [copiedLayer_style, hsave]; simp
  · exact copiedLayer_metadata env orig out2
  · rw [copiedLayer_kind, hout2kind]; exact houtkind
  · exact hnval
  · rw [hnid]; exact hfresh
  · -- tree: clone node sits immediately after the original's former index
    unfold Project.removeMapLayers
    rw [show (copiedLayer env orig out2).id = out2.id from
      copiedLayer_id env orig out2]
    rw [htree]
    rfl

/-- Witness for C1 on a fully concrete scenario: layer "L1" in "EPSG:3857"
inside an "EPSG:4326" project is replaced by the reprojected clone "L2". -/
theorem replace_single_mismatched_vector_layer_witness :
    ∃ p' new,
      replace_layers_with_reprojected_clones envW [origC] "/tmp" pC1 =
        some p' ∧
      p'.layers = [new] ∧
      new.crs = pC1.crs ∧ new.name = origC.name ∧ new.style = origC.style ∧
      new.metadata = origC.metadata ∧
      new.kind = LayerKind.vector ∧ new.isValid = true ∧
      new.id ≠ origC.id ∧
      p'.tree = [TreeChild.layerRef origC.id origC.name,
                 TreeChild.layerRef new.id origC.name] :=
  replace_single_mismatched_vector_layer envW origC "/tmp" pC1 rfl (by decide)
    rfl rfl (by decide) (by decide) (by decide) (by decide) (by decide) rfl

end PytestQgis
